import Mathlib

/-!
Verification of the two-screen React Native app (login form + student
records CRUD screen).

The embedding models the two screen modules:

  * `handleLogin` — the login handler: required-field check, the remote
    call's three possible outcomes (resolved with a token value, resolved
    without a truthy token, rejected), the alert shown and whether the
    handler navigates to the Home screen.

  * The records screen: `Student`, the form/`editId` state, `saveStudent`
    (validation, edit branch, add branch), `deleteStudent`,
    `saveToStorage` / `loadStudents` with a character-level model of
    `JSON.stringify` / `JSON.parse` on student arrays.

JavaScript truthiness of a string (empty string and `null` are falsy) is
modelled explicitly wherever the source tests a string or a
`string | null` with `if (x)`.
-/

namespace LoginApp

/-- One student record, exactly the `Student` interface of the source:
`id`, `first_name`, `last_name`, `email`, `age`, `grade`, all strings. -/
structure Student where
  id : String
  first_name : String
  last_name : String
  email : String
  age : String
  grade : String
deriving DecidableEq, Repr

/-- The records screen's state relevant to the store and the form: the
`students` list plus the `name`, `email`, `age`, `grade` form fields and
`editId` (`string | null` in the source, so `Option String` here). The
purely presentational `modalVisible` / `selectedStudent` state is not
modelled. -/
structure HomeState where
  students : List Student
  name : String
  email : String
  age : String
  grade : String
  editId : Option String
deriving DecidableEq, Repr

/-- Result of one `saveStudent` call: the new screen state, the alert
shown (title, message), and the student list handed to `saveToStorage`
(`none` when no write was issued). -/
structure SaveOutcome where
  state : HomeState
  alert : String × String
  persisted : Option (List Student)
deriving DecidableEq, Repr

/-- JavaScript truthiness of a `string | null` value: `null` and the
empty string are falsy. -/
def optTruthy : Option String → Bool
  | none => false
  | some s => !(s == "")

/-- The add branch of `saveStudent` (source: builds `newStudent` with
`id: Date.now().toString()` and `last_name: ''`, appends it, alerts
success, persists, resets the form). `now` stands for `Date.now()`.
The source does not touch `editId` in this branch. -/
def addStudentBranch (now : Nat) (st : HomeState) : SaveOutcome :=
  let newStudent : Student :=
    { id := toString now, first_name := st.name, last_name := "",
      email := st.email, age := st.age, grade := st.grade }
  let updatedStudents := st.students ++ [newStudent]
  { state := { students := updatedStudents, name := "", email := "", age := "",
               grade := "", editId := st.editId },
    alert := ("Sukses", "Siswa berhasil ditambahkan!"),
    persisted := some updatedStudents }

/-- The edit branch of `saveStudent` (source: maps over `students`
replacing every record whose `id` equals `editId` by a record with the
same id, the form fields, and `last_name: ''`; clears `editId`, alerts
success, persists, resets the form). -/
def editStudentBranch (st : HomeState) (e : String) : SaveOutcome :=
  let updatedStudents := st.students.map fun s =>
    if s.id = e then
      { id := e, first_name := st.name, last_name := "",
        email := st.email, age := st.age, grade := st.grade }
    else s
  { state := { students := updatedStudents, name := "", email := "", age := "",
               grade := "", editId := none },
    alert := ("Sukses", "Data siswa berhasil diperbarui!"),
    persisted := some updatedStudents }

/-- The `saveStudent` handler. If any of the four form fields is empty
(`if (!name || !email || !age || !grade)`), it alerts a validation error
and returns with nothing changed. Otherwise `if (editId)` — the JS
truthy test, false for `null` and for the empty string — selects the
edit branch, else the add branch. -/
def saveStudent (now : Nat) (st : HomeState) : SaveOutcome :=
  if st.name = "" ∨ st.email = "" ∨ st.age = "" ∨ st.grade = "" then
    { state := st, alert := ("Error", "Semua kolom harus diisi!"), persisted := none }
  else
    match st.editId with
    | some e => if e = "" then addStudentBranch now st else editStudentBranch st e
    | none => addStudentBranch now st

/-- Result of one `deleteStudent` call: the student list afterwards and
the list handed to `saveToStorage` (`none` when the user cancelled). -/
structure DeleteOutcome where
  students : List Student
  persisted : Option (List Student)
deriving DecidableEq, Repr

/-- The `deleteStudent` handler. A confirmation dialog guards the
deletion; on confirm the source filters `student.id !== id`, stores the
result and persists it, on cancel nothing happens. -/
def deleteStudent (id : String) (students : List Student) (confirmed : Bool) :
    DeleteOutcome :=
  if confirmed then
    let updatedStudents := students.filter fun student => student.id ≠ id
    { students := updatedStudents, persisted := some updatedStudents }
  else
    { students := students, persisted := none }

/-- The `editStudent` handler: copies the record's fields into the form
and sets `editId` to the record's id. -/
def editStudent (s : Student) (st : HomeState) : HomeState :=
  { st with name := s.first_name, email := s.email, age := s.age,
            grade := s.grade, editId := some s.id }

/-- Lowercase hex digit for a value below 16, as `JSON.stringify` emits
in a `\u00XX` escape. -/
def hexDigit (n : Nat) : Char :=
  if n < 10 then Char.ofNat (48 + n) else Char.ofNat (87 + n)

/-- How `JSON.stringify` escapes one character inside a string literal:
quote and backslash get a backslash escape, the five control characters
with short escapes use them, every other control character below 0x20
becomes `\u00XX` (lowercase hex), and everything else is literal. -/
def escapeChar (c : Char) : List Char :=
  if c = '"' then ['\\', '"']
  else if c = '\\' then ['\\', '\\']
  else if c = Char.ofNat 8 then ['\\', 'b']
  else if c = Char.ofNat 9 then ['\\', 't']
  else if c = Char.ofNat 10 then ['\\', 'n']
  else if c = Char.ofNat 12 then ['\\', 'f']
  else if c = Char.ofNat 13 then ['\\', 'r']
  else if c.toNat < 32 then
    ['\\', 'u', '0', '0', hexDigit (c.toNat / 16), hexDigit (c.toNat % 16)]
  else [c]

/-- Body of a JSON string literal for the character list `s`. -/
def escapeString (s : List Char) : List Char :=
  (s.map escapeChar).flatten

/-- A complete JSON string literal: quote, escaped body, quote. -/
def quoteJ (s : List Char) : List Char :=
  '"' :: escapeString s ++ ['"']

/-- Numeric value of a hex digit accepted in a `\uXXXX` escape. -/
def hexVal (c : Char) : Option Nat :=
  if '0' ≤ c ∧ c ≤ '9' then some (c.toNat - 48)
  else if 'a' ≤ c ∧ c ≤ 'f' then some (c.toNat - 87)
  else if 'A' ≤ c ∧ c ≤ 'F' then some (c.toNat - 55)
  else none

/-- Value of a short escape `\X` as `JSON.parse` reads it. -/
def decShort (c : Char) : Option Char :=
  if c = '"' then some '"'
  else if c = '\\' then some '\\'
  else if c = '/' then some '/'
  else if c = 'b' then some (Char.ofNat 8)
  else if c = 't' then some (Char.ofNat 9)
  else if c = 'n' then some (Char.ofNat 10)
  else if c = 'f' then some (Char.ofNat 12)
  else if c = 'r' then some (Char.ofNat 13)
  else none

/-- Parse the body of a JSON string literal up to and including the
closing quote, as `JSON.parse` does: raw control characters are
rejected, `\uXXXX` and the short escapes are decoded; returns the
decoded characters and the unconsumed suffix. (Surrogate-pair
combination is irrelevant here: Lean characters are scalar values and
the printer never emits surrogate escapes.) -/
def parseStringBody : List Char → Option (List Char × List Char)
  | [] => none
  | c :: rest =>
    if c = '"' then some ([], rest)
    else if c = '\\' then
      match rest with
      | 'u' :: a :: b :: d :: e :: rest2 =>
        match hexVal a, hexVal b, hexVal d, hexVal e with
        | some va, some vb, some vd, some ve =>
          match parseStringBody rest2 with
          | some (s, r) =>
            some (Char.ofNat (((va * 16 + vb) * 16 + vd) * 16 + ve) :: s, r)
          | none => none
        | _, _, _, _ => none
      | c2 :: rest2 =>
        match decShort c2 with
        | some d =>
          match parseStringBody rest2 with
          | some (s, r) => some (d :: s, r)
          | none => none
        | none => none
      | [] => none
    else if c.toNat < 32 then none
    else
      match parseStringBody rest with
      | some (s, r) => some (c :: s, r)
      | none => none

/-- Parse one JSON string literal: an opening quote then a body. -/
def parseJString (input : List Char) : Option (List Char × List Char) :=
  match input with
  | '"' :: rest => parseStringBody rest
  | _ => none

/-- Consume one expected character. -/
def expectChar (c : Char) (input : List Char) : Option (List Char) :=
  match input with
  | x :: rest => if x = c then some rest else none
  | [] => none

/-- Parse a `"key":"value"` pair whose key must be `key`; returns the
value's characters and the unconsumed suffix. `JSON.parse` accepts keys
in any order; the blob read back here is always one `JSON.stringify`
produced, whose key order is the object's fixed field order, so a
fixed-order reader is exact on every input `loadStudents` ever sees. -/
def parseField (key : List Char) (input : List Char) : Option (List Char × List Char) :=
  match parseJString input with
  | none => none
  | some (k, r1) =>
    if k = key then
      match expectChar ':' r1 with
      | none => none
      | some r2 => parseJString r2
    else none

/-- Parse a comma followed by a `"key":"value"` pair. -/
def parseCommaField (key : List Char) (input : List Char) :
    Option (List Char × List Char) :=
  match expectChar ',' input with
  | none => none
  | some r => parseField key r

/-- The characters `JSON.stringify` produces for one student: an object
literal with the six fields in declaration order. -/
def stringifyStudent (s : Student) : List Char :=
  '{' :: (quoteJ "id".data ++ ':' :: quoteJ s.id.data ++
    ',' :: quoteJ "first_name".data ++ ':' :: quoteJ s.first_name.data ++
    ',' :: quoteJ "last_name".data ++ ':' :: quoteJ s.last_name.data ++
    ',' :: quoteJ "email".data ++ ':' :: quoteJ s.email.data ++
    ',' :: quoteJ "age".data ++ ':' :: quoteJ s.age.data ++
    ',' :: quoteJ "grade".data ++ ':' :: quoteJ s.grade.data ++ ['}'])

/-- Parse one student object literal: opening brace, the six
`"key":"value"` fields in declaration order, closing brace. -/
def parseStudent (input : List Char) : Option (Student × List Char) :=
  (expectChar '{' input).bind fun r0 =>
  (parseField "id".data r0).bind fun p1 =>
  (parseCommaField "first_name".data p1.2).bind fun p2 =>
  (parseCommaField "last_name".data p2.2).bind fun p3 =>
  (parseCommaField "email".data p3.2).bind fun p4 =>
  (parseCommaField "age".data p4.2).bind fun p5 =>
  (parseCommaField "grade".data p5.2).bind fun p6 =>
  (expectChar '}' p6.2).bind fun r7 =>
  some ({ id := String.mk p1.1, first_name := String.mk p2.1,
          last_name := String.mk p3.1, email := String.mk p4.1,
          age := String.mk p5.1, grade := String.mk p6.1 }, r7)

/-- Comma-joined element list of the array literal, as
`JSON.stringify`'s array serialization produces it. -/
def stringifyList : List Student → List Char
  | [] => []
  | [s] => stringifyStudent s
  | s :: rest => stringifyStudent s ++ ',' :: stringifyList rest

/-- `JSON.stringify` on a student array: bracketed comma-joined
elements. -/
def stringifyStudents (l : List Student) : String :=
  String.mk ('[' :: stringifyList l ++ [']'])

/-- Parse a non-empty comma-separated element run up to and including
the closing bracket. The fuel argument only bounds recursion depth; one
element consumes at least one character, so `input.length + 1` is always
enough. -/
def parseStudentsAux : Nat → List Char → Option (List Student × List Char)
  | 0, _ => none
  | Nat.succ fuel, input =>
    match parseStudent input with
    | none => none
    | some (s, r) =>
      match r with
      | ',' :: r2 =>
        match parseStudentsAux fuel r2 with
        | none => none
        | some (l, r3) => some (s :: l, r3)
      | ']' :: r2 => some ([s], r2)
      | _ => none

/-- `JSON.parse` on a serialized student array, restricted to the exact
grammar `JSON.stringify` emits (no insignificant whitespace, fixed key
order — the only blobs this application ever stores); any other input
is a parse failure, which the caller's catch block turns into a no-op. -/
def parseStudents (str : String) : Option (List Student) :=
  match str.data with
  | '[' :: rest =>
    match rest with
    | [']'] => some []
    | _ =>
      match parseStudentsAux (rest.length + 1) rest with
      | some (l, []) => some l
      | _ => none
  | _ => none

/-- The `saveToStorage` helper: `JSON.stringify` the list and overwrite
the single `students` key. The result is the storage cell's value after
a successful write (a failed write is caught and only logged; the
persisted-value claims below are about the successful path). -/
def saveToStorage (data : List Student) : Option String :=
  some (stringifyStudents data)

/-- The `loadStudents` mount effect: read the `students` key; when the
stored value is truthy (`if (storedData)` — absent and empty string are
falsy), `JSON.parse` it into the state; a parse failure is caught and
leaves the current state. `current` is the state before the load. -/
def loadStudents (stored : Option String) (current : List Student) : List Student :=
  match stored with
  | none => current
  | some s =>
    if s = "" then current
    else
      match parseStudents s with
      | some l => l
      | none => current

/-- Outcome of the remote login call as the handler observes it: the
promise resolves with response data whose `token` field is present or
absent, or it rejects (network error or non-2xx status — axios rejects
on both). -/
inductive LoginApiResult where
  | resolved (token : Option String)
  | rejected
deriving DecidableEq, Repr

/-- Result of one `handleLogin` call: the alert shown, whether the
handler navigated to Home, and whether the network call was issued. -/
structure LoginOutcome where
  alert : Option (String × String)
  navigatedHome : Bool
  apiCalled : Bool
deriving DecidableEq, Repr

/-- JS truthiness of `response.data.token`: an absent field and the
empty string are falsy. -/
def tokenTruthy : Option String → Bool
  | none => false
  | some t => !(t == "")

/-- The `handleLogin` handler. Empty email or password
(`if (!email || !password)`) alerts a validation error and issues no
call. Otherwise the call is made: on a resolved promise,
`if (response.data.token)` alerts success and navigates when the token
is truthy and does nothing at all otherwise; a rejected promise lands in
the catch block, which alerts the generic failure message. -/
def handleLogin (email password : String) (api : LoginApiResult) : LoginOutcome :=
  if email = "" ∨ password = "" then
    { alert := some ("Error", "Email dan password wajib diisi!"),
      navigatedHome := false, apiCalled := false }
  else
    match api with
    | .rejected =>
        { alert := some ("Gagal", "Email atau password salah"),
          navigatedHome := false, apiCalled := true }
    | .resolved t =>
        if tokenTruthy t then
          { alert := some ("Sukses", "Login berhasil!"),
            navigatedHome := true, apiCalled := true }
        else
          { alert := none, navigatedHome := false, apiCalled := true }

/-- One user-initiated store mutation, as dispatched by the screen's
handlers: a save in add mode (`editId` unset) at time `now`, a save in
edit mode (`editId` set to `e`) at time `now`, or a confirmed delete. -/
inductive StoreOp where
  | addOp (now : Nat) (name email age grade : String)
  | editOp (now : Nat) (e : String) (name email age grade : String)
  | removeOp (id : String)
deriving DecidableEq, Repr

/-- Effect of one operation on the student list, routed through the
source handlers (`saveStudent` with the matching form state,
`deleteStudent` with the confirmation accepted). -/
def applyOp (students : List Student) : StoreOp → List Student
  | .addOp now n em a g =>
      (saveStudent now { students := students, name := n, email := em,
                         age := a, grade := g, editId := none }).state.students
  | .editOp now e n em a g =>
      (saveStudent now { students := students, name := n, email := em,
                         age := a, grade := g, editId := some e }).state.students
  | .removeOp i => (deleteStudent i students true).students

/-- Store contents after running a sequence of operations from the
initial empty store. -/
def runOps (ops : List StoreOp) : List Student :=
  ops.foldl applyOp []

/-- The save operation's timestamp, when it has one. -/
def opNow : StoreOp → Option Nat
  | .addOp now _ _ _ _ => some now
  | .editOp now _ _ _ _ _ => some now
  | .removeOp _ => none

/-- Fresh-timestamp discipline along an operation sequence: before each
save, the save's `Date.now()` value rendered as a string is not already
an id in the store. (The code itself never checks this; the uniqueness
theorem below needs it, and the counterexample shows why.) -/
def freshOps : List Student → List StoreOp → Bool
  | _, [] => true
  | st, op :: rest =>
    (match opNow op with
     | some now => !((st.map Student.id).contains (toString now))
     | none => true) && freshOps (applyOp st op) rest

/-! Branch equations for `saveStudent`, used throughout the theorems
below. -/

/-- With a required field empty, `saveStudent` takes the validation
branch. -/
theorem saveStudent_validation_eq (now : Nat) (st : HomeState)
    (h : st.name = "" ∨ st.email = "" ∨ st.age = "" ∨ st.grade = "") :
    saveStudent now st =
      { state := st, alert := ("Error", "Semua kolom harus diisi!"),
        persisted := none } := by
  unfold saveStudent
  rw [if_pos h]

/-- With valid fields and `editId` unset, `saveStudent` takes the add
branch. -/
theorem saveStudent_add_eq (now : Nat) (st : HomeState)
    (he : st.editId = none)
    (hcond : ¬ (st.name = "" ∨ st.email = "" ∨ st.age = "" ∨ st.grade = "")) :
    saveStudent now st = addStudentBranch now st := by
  unfold saveStudent
  rw [if_neg hcond, he]

/-- With valid fields and `editId` set to the empty string — falsy in
JavaScript — `saveStudent` also takes the add branch. -/
theorem saveStudent_add_eq_of_empty (now : Nat) (st : HomeState)
    (he : st.editId = some "")
    (hcond : ¬ (st.name = "" ∨ st.email = "" ∨ st.age = "" ∨ st.grade = "")) :
    saveStudent now st = addStudentBranch now st := by
  unfold saveStudent
  rw [if_neg hcond, he]
  exact if_pos rfl

/-- With valid fields and `editId` set to a non-empty id, `saveStudent`
takes the edit branch. -/
theorem saveStudent_edit_eq (now : Nat) (st : HomeState) (e : String)
    (he : st.editId = some e) (hne : e ≠ "")
    (hcond : ¬ (st.name = "" ∨ st.email = "" ∨ st.age = "" ∨ st.grade = "")) :
    saveStudent now st = editStudentBranch st e := by
  unfold saveStudent
  rw [if_neg hcond, he]
  exact if_neg hne

/-- When no record's id equals `e`, the edit branch's map is the
identity. -/
theorem editStudentBranch_map_id (st : HomeState) (e : String)
    (hnomatch : ∀ s ∈ st.students, s.id ≠ e) :
    st.students.map (fun s => if s.id = e then
        { id := e, first_name := st.name, last_name := "",
          email := st.email, age := st.age, grade := st.grade } else s)
      = st.students := by
  calc st.students.map (fun s => if s.id = e then
          { id := e, first_name := st.name, last_name := "",
            email := st.email, age := st.age, grade := st.grade } else s)
      = st.students.map id := by
        apply List.map_congr_left
        intro s hs
        rw [if_neg (hnomatch s hs)]
        rfl
    _ = st.students := List.map_id st.students

/-! Theorems for the claims -/

/-- C2: whenever at least one of the four required form fields (name,
email, age, grade) is empty, `saveStudent` signals the validation error
alert, performs no mutation and no storage write, and leaves the whole
state — students, form fields and `editId` — unchanged; in particular
the record count is unchanged. -/
theorem saveStudent_validation_no_mutation (now : Nat) (st : HomeState)
    (h : st.name = "" ∨ st.email = "" ∨ st.age = "" ∨ st.grade = "") :
    (saveStudent now st).state = st ∧
    (saveStudent now st).alert = ("Error", "Semua kolom harus diisi!") ∧
    (saveStudent now st).persisted = none ∧
    (saveStudent now st).state.students.length = st.students.length := by
  rw [saveStudent_validation_eq now st h]
  exact ⟨rfl, rfl, rfl, rfl⟩

theorem saveStudent_validation_no_mutation_witness :
    (saveStudent 0 { students := [], name := "", email := "e", age := "1",
                     grade := "2", editId := none }).state =
      { students := [], name := "", email := "e", age := "1",
        grade := "2", editId := none } ∧
    (saveStudent 0 { students := [], name := "", email := "e", age := "1",
                     grade := "2", editId := none }).alert =
      ("Error", "Semua kolom harus diisi!") ∧
    (saveStudent 0 { students := [], name := "", email := "e", age := "1",
                     grade := "2", editId := none }).persisted = none ∧
    (saveStudent 0 { students := [], name := "", email := "e", age := "1",
                     grade := "2", editId := none }).state.students.length =
      ([] : List Student).length :=
  saveStudent_validation_no_mutation 0
    { students := [], name := "", email := "e", age := "1",
      grade := "2", editId := none } (Or.inl rfl)

/-- C3: with `editId` unset and all four fields non-empty, `saveStudent`
appends exactly one record to the end (count up by one, prior records
unchanged in place), the new record carries the form input (and a
timestamp id), and the form fields are reset to empty. -/
theorem saveStudent_add_appends (now : Nat) (st : HomeState)
    (he : st.editId = none)
    (hn : st.name ≠ "") (hm : st.email ≠ "") (ha : st.age ≠ "") (hg : st.grade ≠ "") :
    (saveStudent now st).state.students =
      st.students ++ [{ id := toString now, first_name := st.name, last_name := "",
                        email := st.email, age := st.age, grade := st.grade }] ∧
    (saveStudent now st).state.students.length = st.students.length + 1 ∧
    (saveStudent now st).state.name = "" ∧
    (saveStudent now st).state.email = "" ∧
    (saveStudent now st).state.age = "" ∧
    (saveStudent now st).state.grade = "" := by
  have hcond : ¬ (st.name = "" ∨ st.email = "" ∨ st.age = "" ∨ st.grade = "") := by
    simp [hn, hm, ha, hg]
  rw [saveStudent_add_eq now st he hcond]
  simp [addStudentBranch]

theorem saveStudent_add_appends_witness :
    (saveStudent 7 { students := [], name := "Ann", email := "a@x.com", age := "10",
                     grade := "5", editId := none }).state.students =
      [] ++ [{ id := "7", first_name := "Ann", last_name := "", email := "a@x.com",
               age := "10", grade := "5" }] ∧
    (saveStudent 7 { students := [], name := "Ann", email := "a@x.com", age := "10",
                     grade := "5", editId := none }).state.students.length =
      ([] : List Student).length + 1 ∧
    (saveStudent 7 { students := [], name := "Ann", email := "a@x.com", age := "10",
                     grade := "5", editId := none }).state.name = "" ∧
    (saveStudent 7 { students := [], name := "Ann", email := "a@x.com", age := "10",
                     grade := "5", editId := none }).state.email = "" ∧
    (saveStudent 7 { students := [], name := "Ann", email := "a@x.com", age := "10",
                     grade := "5", editId := none }).state.age = "" ∧
    (saveStudent 7 { students := [], name := "Ann", email := "a@x.com", age := "10",
                     grade := "5", editId := none }).state.grade = "" := by
  have h := saveStudent_add_appends 7
    { students := [], name := "Ann", email := "a@x.com", age := "10",
      grade := "5", editId := none }
    rfl (by decide) (by decide) (by decide) (by decide)
  simpa using h

/-- C7: with `editId` set (truthy) but matching no record's id, a valid
`saveStudent` leaves the student list unchanged and raises no error —
the alert shown is the ordinary update-success message. -/
theorem saveStudent_edit_no_match (now : Nat) (st : HomeState) (e : String)
    (he : st.editId = some e) (hne : e ≠ "")
    (hn : st.name ≠ "") (hm : st.email ≠ "") (ha : st.age ≠ "") (hg : st.grade ≠ "")
    (hnomatch : ∀ s ∈ st.students, s.id ≠ e) :
    (saveStudent now st).state.students = st.students ∧
    (saveStudent now st).alert = ("Sukses", "Data siswa berhasil diperbarui!") := by
  have hcond : ¬ (st.name = "" ∨ st.email = "" ∨ st.age = "" ∨ st.grade = "") := by
    simp [hn, hm, ha, hg]
  rw [saveStudent_edit_eq now st e he hne hcond]
  exact ⟨editStudentBranch_map_id st e hnomatch, rfl⟩

theorem saveStudent_edit_no_match_witness :
    (saveStudent 0 { students := [{ id := "1", first_name := "A", last_name := "",
                                    email := "a", age := "9", grade := "3" }],
                     name := "N", email := "E", age := "7", grade := "1",
                     editId := some "2" }).state.students =
      [{ id := "1", first_name := "A", last_name := "", email := "a",
         age := "9", grade := "3" }] ∧
    (saveStudent 0 { students := [{ id := "1", first_name := "A", last_name := "",
                                    email := "a", age := "9", grade := "3" }],
                     name := "N", email := "E", age := "7", grade := "1",
                     editId := some "2" }).alert =
      ("Sukses", "Data siswa berhasil diperbarui!") :=
  saveStudent_edit_no_match 0
    { students := [{ id := "1", first_name := "A", last_name := "",
                     email := "a", age := "9", grade := "3" }],
      name := "N", email := "E", age := "7", grade := "1", editId := some "2" }
    "2" rfl (by decide) (by decide) (by decide) (by decide) (by decide)
    (by decide)

/-- C10: with `editId` set (truthy) but matching no record, a valid
`saveStudent` still performs the full Editing-to-Idle transition: the
list is unchanged, `editId` is cleared, all four form fields are reset,
the success alert is reported, and the unchanged list is rewritten to
persistent storage. -/
theorem saveStudent_edit_no_match_transition (now : Nat) (st : HomeState) (e : String)
    (he : st.editId = some e) (hne : e ≠ "")
    (hn : st.name ≠ "") (hm : st.email ≠ "") (ha : st.age ≠ "") (hg : st.grade ≠ "")
    (hnomatch : ∀ s ∈ st.students, s.id ≠ e) :
    (saveStudent now st).state.students = st.students ∧
    (saveStudent now st).state.editId = none ∧
    (saveStudent now st).state.name = "" ∧
    (saveStudent now st).state.email = "" ∧
    (saveStudent now st).state.age = "" ∧
    (saveStudent now st).state.grade = "" ∧
    (saveStudent now st).alert = ("Sukses", "Data siswa berhasil diperbarui!") ∧
    (saveStudent now st).persisted = some st.students := by
  have hcond : ¬ (st.name = "" ∨ st.email = "" ∨ st.age = "" ∨ st.grade = "") := by
    simp [hn, hm, ha, hg]
  have hmap := editStudentBranch_map_id st e hnomatch
  rw [saveStudent_edit_eq now st e he hne hcond]
  refine ⟨hmap, rfl, rfl, rfl, rfl, rfl, rfl, ?_⟩
  show some (st.students.map _) = some st.students
  rw [hmap]

theorem saveStudent_edit_no_match_transition_witness :
    (saveStudent 0 { students := [{ id := "1", first_name := "A", last_name := "",
                                    email := "a", age := "9", grade := "3" }],
                     name := "N", email := "E", age := "7", grade := "1",
                     editId := some "9" }).state.students =
      [{ id := "1", first_name := "A", last_name := "", email := "a",
         age := "9", grade := "3" }] ∧
    (saveStudent 0 { students := [{ id := "1", first_name := "A", last_name := "",
                                    email := "a", age := "9", grade := "3" }],
                     name := "N", email := "E", age := "7", grade := "1",
                     editId := some "9" }).state.editId = none ∧
    (saveStudent 0 { students := [{ id := "1", first_name := "A", last_name := "",
                                    email := "a", age := "9", grade := "3" }],
                     name := "N", email := "E", age := "7", grade := "1",
                     editId := some "9" }).state.name = "" ∧
    (saveStudent 0 { students := [{ id := "1", first_name := "A", last_name := "",
                                    email := "a", age := "9", grade := "3" }],
                     name := "N", email := "E", age := "7", grade := "1",
                     editId := some "9" }).state.email = "" ∧
    (saveStudent 0 { students := [{ id := "1", first_name := "A", last_name := "",
                                    email := "a", age := "9", grade := "3" }],
                     name := "N", email := "E", age := "7", grade := "1",
                     editId := some "9" }).state.age = "" ∧
    (saveStudent 0 { students := [{ id := "1", first_name := "A", last_name := "",
                                    email := "a", age := "9", grade := "3" }],
                     name := "N", email := "E", age := "7", grade := "1",
                     editId := some "9" }).state.grade = "" ∧
    (saveStudent 0 { students := [{ id := "1", first_name := "A", last_name := "",
                                    email := "a", age := "9", grade := "3" }],
                     name := "N", email := "E", age := "7", grade := "1",
                     editId := some "9" }).alert =
      ("Sukses", "Data siswa berhasil diperbarui!") ∧
    (saveStudent 0 { students := [{ id := "1", first_name := "A", last_name := "",
                                    email := "a", age := "9", grade := "3" }],
                     name := "N", email := "E", age := "7", grade := "1",
                     editId := some "9" }).persisted =
      some [{ id := "1", first_name := "A", last_name := "", email := "a",
              age := "9", grade := "3" }] :=
  saveStudent_edit_no_match_transition 0
    { students := [{ id := "1", first_name := "A", last_name := "",
                     email := "a", age := "9", grade := "3" }],
      name := "N", email := "E", age := "7", grade := "1", editId := some "9" }
    "9" rfl (by decide) (by decide) (by decide) (by decide) (by decide)
    (by decide)

/-- C9: every record present after a `saveStudent` call either was
already in the store or has an empty `last_name` — both branches write
`last_name: ''`, so the form can never produce, and an edit always
erases, a non-empty last name. -/
theorem saveStudent_last_name_blank (now : Nat) (st : HomeState) :
    ∀ s ∈ (saveStudent now st).state.students, s ∈ st.students ∨ s.last_name = "" := by
  intro s hs
  by_cases hcond : st.name = "" ∨ st.email = "" ∨ st.age = "" ∨ st.grade = ""
  · rw [saveStudent_validation_eq now st hcond] at hs
    exact Or.inl hs
  · have hadd : ∀ h : s ∈ (addStudentBranch now st).state.students,
        s ∈ st.students ∨ s.last_name = "" := by
      intro h
      simp only [addStudentBranch, List.mem_append, List.mem_singleton] at h
      rcases h with h | h
      · exact Or.inl h
      · right
        rw [h]
    cases he : st.editId with
    | none =>
      rw [saveStudent_add_eq now st he hcond] at hs
      exact hadd hs
    | some e =>
      by_cases hee : e = ""
      · rw [saveStudent_add_eq_of_empty now st (hee ▸ he) hcond] at hs
        exact hadd hs
      · rw [saveStudent_edit_eq now st e he hee hcond] at hs
        simp only [editStudentBranch, List.mem_map] at hs
        obtain ⟨x, hx, hfx⟩ := hs
        by_cases hid : x.id = e
        · rw [if_pos hid] at hfx
          right
          rw [← hfx]
        · rw [if_neg hid] at hfx
          exact Or.inl (hfx ▸ hx)

theorem saveStudent_last_name_blank_witness :
    ({ id := "1", first_name := "N", last_name := "", email := "E",
       age := "9", grade := "4" } : Student) ∈
        [{ id := "1", first_name := "A", last_name := "X", email := "a",
           age := "9", grade := "3" }] ∨
    ({ id := "1", first_name := "N", last_name := "", email := "E",
       age := "9", grade := "4" } : Student).last_name = "" :=
  saveStudent_last_name_blank 0
    { students := [{ id := "1", first_name := "A", last_name := "X",
                     email := "a", age := "9", grade := "3" }],
      name := "N", email := "E", age := "9", grade := "4", editId := some "1" }
    { id := "1", first_name := "N", last_name := "", email := "E",
      age := "9", grade := "4" }
    (by decide)

/-- C1 counterexample: with non-empty email and password, a resolved
login call whose response data has no `token` field falls through the
`if (response.data.token)` test and the handler shows no alert at all —
no authentication-failure message is surfaced, refuting the claim that
every failure (including a missing token) produces one. The user does
remain on the login screen. -/
theorem handleLogin_missing_token_silent :
    (handleLogin "a@x.com" "p" (LoginApiResult.resolved none)).alert = none ∧
    (handleLogin "a@x.com" "p" (LoginApiResult.resolved none)).navigatedHome = false :=
  ⟨rfl, rfl⟩

/-- C1 amended: with non-empty email and password, a rejected login call
(network error or non-2xx response) surfaces the generic
authentication-failure alert and the user remains on the login screen;
a call that resolves without a truthy `token` field also leaves the user
on the login screen, but silently — no message of any kind is shown. -/
theorem handleLogin_failure_behaviour (email password : String) (api : LoginApiResult)
    (he : email ≠ "") (hp : password ≠ "") :
    (api = LoginApiResult.rejected →
      (handleLogin email password api).alert =
          some ("Gagal", "Email atau password salah") ∧
      (handleLogin email password api).navigatedHome = false) ∧
    (∀ t, api = LoginApiResult.resolved t → tokenTruthy t = false →
      (handleLogin email password api).alert = none ∧
      (handleLogin email password api).navigatedHome = false) := by
  have hcond : ¬ (email = "" ∨ password = "") := by simp [he, hp]
  constructor
  · rintro rfl
    unfold handleLogin
    rw [if_neg hcond]
    exact ⟨rfl, rfl⟩
  · rintro t rfl ht
    unfold handleLogin
    rw [if_neg hcond]
    simp [ht]

theorem handleLogin_failure_behaviour_witness :
    (handleLogin "a@x.com" "p" LoginApiResult.rejected).alert =
        some ("Gagal", "Email atau password salah") ∧
    (handleLogin "a@x.com" "p" LoginApiResult.rejected).navigatedHome = false :=
  (handleLogin_failure_behaviour "a@x.com" "p" LoginApiResult.rejected
    (by decide) (by decide)).1 rfl

/-- C4: with `editId` set (truthy) to the id of a record present in a
store whose ids are unique (the store's own invariant), a valid
`saveStudent` keeps the record count, replaces exactly that record — in
place, with the same id and the form's field values — leaves every other
record unchanged, and clears `editId`. The position is expressed by the
arbitrary split `l₁ ++ s :: l₂` of the store around the matched
record. -/
theorem saveStudent_edit_replaces (now : Nat) (st : HomeState) (e : String)
    (l₁ l₂ : List Student) (s : Student)
    (he : st.editId = some e) (hne : e ≠ "")
    (hn : st.name ≠ "") (hm : st.email ≠ "") (ha : st.age ≠ "") (hg : st.grade ≠ "")
    (hnodup : (st.students.map Student.id).Nodup)
    (hsplit : st.students = l₁ ++ s :: l₂) (hid : s.id = e) :
    (saveStudent now st).state.students =
      l₁ ++ { id := e, first_name := st.name, last_name := "",
              email := st.email, age := st.age, grade := st.grade } :: l₂ ∧
    (saveStudent now st).state.students.length = st.students.length ∧
    (saveStudent now st).state.editId = none := by
  have hcond : ¬ (st.name = "" ∨ st.email = "" ∨ st.age = "" ∨ st.grade = "") := by
    simp [hn, hm, ha, hg]
  rw [saveStudent_edit_eq now st e he hne hcond]
  rw [hsplit] at hnodup
  have hnotmem : s.id ∉ (l₁.map Student.id ++ l₂.map Student.id) := by
    have h1 : ((l₁.map Student.id) ++ s.id :: (l₂.map Student.id)).Nodup := by
      simpa using hnodup
    exact (List.nodup_cons.mp (List.nodup_middle.mp h1)).1
  have hl₁ : ∀ x ∈ l₁, x.id ≠ e := by
    intro x hx hxe
    apply hnotmem
    apply List.mem_append_left
    rw [hid, ← hxe]
    exact List.mem_map_of_mem Student.id hx
  have hl₂ : ∀ x ∈ l₂, x.id ≠ e := by
    intro x hx hxe
    apply hnotmem
    apply List.mem_append_right
    rw [hid, ← hxe]
    exact List.mem_map_of_mem Student.id hx
  have hmapl₁ : l₁.map (fun x => if x.id = e then
        { id := e, first_name := st.name, last_name := "",
          email := st.email, age := st.age, grade := st.grade } else x) = l₁ := by
    calc l₁.map (fun x => if x.id = e then
            { id := e, first_name := st.name, last_name := "",
              email := st.email, age := st.age, grade := st.grade } else x)
        = l₁.map id := List.map_congr_left fun x hx => by rw [if_neg (hl₁ x hx)]; rfl
      _ = l₁ := List.map_id l₁
  have hmapl₂ : l₂.map (fun x => if x.id = e then
        { id := e, first_name := st.name, last_name := "",
          email := st.email, age := st.age, grade := st.grade } else x) = l₂ := by
    calc l₂.map (fun x => if x.id = e then
            { id := e, first_name := st.name, last_name := "",
              email := st.email, age := st.age, grade := st.grade } else x)
        = l₂.map id := List.map_congr_left fun x hx => by rw [if_neg (hl₂ x hx)]; rfl
      _ = l₂ := List.map_id l₂
  have hstudents : (editStudentBranch st e).state.students =
      l₁ ++ { id := e, first_name := st.name, last_name := "",
              email := st.email, age := st.age, grade := st.grade } :: l₂ := by
    show st.students.map _ = _
    rw [hsplit, List.map_append, List.map_cons, hmapl₁, hmapl₂, if_pos hid]
  refine ⟨hstudents, ?_, rfl⟩
  rw [hstudents, hsplit]
  simp

theorem saveStudent_edit_replaces_witness :
    (saveStudent 0 { students := [{ id := "1", first_name := "A", last_name := "",
                                    email := "a", age := "9", grade := "3" },
                                  { id := "2", first_name := "B", last_name := "",
                                    email := "b", age := "8", grade := "2" }],
                     name := "N", email := "E", age := "7", grade := "6",
                     editId := some "2" }).state.students =
      [{ id := "1", first_name := "A", last_name := "", email := "a",
         age := "9", grade := "3" }] ++
        [{ id := "2", first_name := "N", last_name := "", email := "E",
           age := "7", grade := "6" }] ∧
    (saveStudent 0 { students := [{ id := "1", first_name := "A", last_name := "",
                                    email := "a", age := "9", grade := "3" },
                                  { id := "2", first_name := "B", last_name := "",
                                    email := "b", age := "8", grade := "2" }],
                     name := "N", email := "E", age := "7", grade := "6",
                     editId := some "2" }).state.students.length =
      ([{ id := "1", first_name := "A", last_name := "", email := "a",
          age := "9", grade := "3" },
        { id := "2", first_name := "B", last_name := "", email := "b",
          age := "8", grade := "2" }] : List Student).length ∧
    (saveStudent 0 { students := [{ id := "1", first_name := "A", last_name := "",
                                    email := "a", age := "9", grade := "3" },
                                  { id := "2", first_name := "B", last_name := "",
                                    email := "b", age := "8", grade := "2" }],
                     name := "N", email := "E", age := "7", grade := "6",
                     editId := some "2" }).state.editId = none := by
  have h := saveStudent_edit_replaces 0
    { students := [{ id := "1", first_name := "A", last_name := "",
                     email := "a", age := "9", grade := "3" },
                   { id := "2", first_name := "B", last_name := "",
                     email := "b", age := "8", grade := "2" }],
      name := "N", email := "E", age := "7", grade := "6", editId := some "2" }
    "2"
    ([{ id := "1", first_name := "A", last_name := "", email := "a",
        age := "9", grade := "3" }] : List Student)
    ([] : List Student)
    ({ id := "2", first_name := "B", last_name := "", email := "b",
       age := "8", grade := "2" } : Student)
    rfl (by decide) (by decide) (by decide) (by decide) (by decide)
    (by decide) rfl rfl
  exact h

/-! Round-trip lemmas for the JSON layer -/

/-- Decoding a hex digit the printer emitted recovers its value. -/
theorem hexVal_hexDigit : ∀ k < 16, hexVal (hexDigit k) = some k := by decide

/-- Parsing the escaped body of a string literal, terminated by its
closing quote, recovers the original characters and leaves the suffix
untouched. -/
theorem parseStringBody_escape (s : List Char) :
    ∀ rest, parseStringBody (escapeString s ++ '"' :: rest) = some (s, rest) := by
  induction s with
  | nil =>
    intro rest
    show parseStringBody ('"' :: rest) = some ([], rest)
    unfold parseStringBody
    rw [if_pos rfl]
  | cons c cs ih =>
    intro rest
    have hes : escapeString (c :: cs) ++ '"' :: rest =
        escapeChar c ++ (escapeString cs ++ '"' :: rest) := by
      simp [escapeString]
    rw [hes]
    by_cases hq : c = '"'
    · subst hq
      have h1 : escapeChar '"' = ['\\', '"'] := by decide
      rw [h1]
      show (match parseStringBody (escapeString cs ++ '"' :: rest) with
            | some (s, r) => some ('"' :: s, r)
            | none => none) = _
      rw [ih rest]
    · by_cases hb : c = '\\'
      · subst hb
        have h1 : escapeChar '\\' = ['\\', '\\'] := by decide
        rw [h1]
        show (match parseStringBody (escapeString cs ++ '"' :: rest) with
              | some (s, r) => some ('\\' :: s, r)
              | none => none) = _
        rw [ih rest]
      · by_cases h8 : c = Char.ofNat 8
        · subst h8
          have h1 : escapeChar (Char.ofNat 8) = ['\\', 'b'] := by decide
          rw [h1]
          show (match parseStringBody (escapeString cs ++ '"' :: rest) with
                | some (s, r) => some (Char.ofNat 8 :: s, r)
                | none => none) = _
          rw [ih rest]
        · by_cases h9 : c = Char.ofNat 9
          · subst h9
            have h1 : escapeChar (Char.ofNat 9) = ['\\', 't'] := by decide
            rw [h1]
            show (match parseStringBody (escapeString cs ++ '"' :: rest) with
                  | some (s, r) => some (Char.ofNat 9 :: s, r)
                  | none => none) = _
            rw [ih rest]
          · by_cases h10 : c = Char.ofNat 10
            · subst h10
              have h1 : escapeChar (Char.ofNat 10) = ['\\', 'n'] := by decide
              rw [h1]
              show (match parseStringBody (escapeString cs ++ '"' :: rest) with
                    | some (s, r) => some (Char.ofNat 10 :: s, r)
                    | none => none) = _
              rw [ih rest]
            · by_cases h12 : c = Char.ofNat 12
              · subst h12
                have h1 : escapeChar (Char.ofNat 12) = ['\\', 'f'] := by decide
                rw [h1]
                show (match parseStringBody (escapeString cs ++ '"' :: rest) with
                      | some (s, r) => some (Char.ofNat 12 :: s, r)
                      | none => none) = _
                rw [ih rest]
              · by_cases h13 : c = Char.ofNat 13
                · subst h13
                  have h1 : escapeChar (Char.ofNat 13) = ['\\', 'r'] := by decide
                  rw [h1]
                  show (match parseStringBody (escapeString cs ++ '"' :: rest) with
                        | some (s, r) => some (Char.ofNat 13 :: s, r)
                        | none => none) = _
                  rw [ih rest]
                · by_cases h32 : c.toNat < 32
                  · have h1 : escapeChar c =
                        ['\\', 'u', '0', '0', hexDigit (c.toNat / 16),
                         hexDigit (c.toNat % 16)] := by
                      unfold escapeChar
                      rw [if_neg hq, if_neg hb, if_neg h8, if_neg h9, if_neg h10,
                          if_neg h12, if_neg h13, if_pos h32]
                    rw [h1]
                    have hd1 : hexVal (hexDigit (c.toNat / 16)) = some (c.toNat / 16) :=
                      hexVal_hexDigit _ (by omega)
                    have hd2 : hexVal (hexDigit (c.toNat % 16)) = some (c.toNat % 16) :=
                      hexVal_hexDigit _ (by omega)
                    show (match hexVal '0', hexVal '0', hexVal (hexDigit (c.toNat / 16)),
                            hexVal (hexDigit (c.toNat % 16)) with
                          | some va, some vb, some vd, some ve =>
                            match parseStringBody (escapeString cs ++ '"' :: rest) with
                            | some (s, r) =>
                              some (Char.ofNat (((va * 16 + vb) * 16 + vd) * 16 + ve) :: s, r)
                            | none => none
                          | _, _, _, _ => none) = _
                    rw [hd1, hd2, show hexVal '0' = some 0 from rfl]
                    show (match parseStringBody (escapeString cs ++ '"' :: rest) with
                          | some (s, r) =>
                            some (Char.ofNat
                              (((0 * 16 + 0) * 16 + c.toNat / 16) * 16 + c.toNat % 16) :: s, r)
                          | none => none) = _
                    rw [ih rest]
                    have hval : ((0 * 16 + 0) * 16 + c.toNat / 16) * 16 + c.toNat % 16 =
                        c.toNat := by omega
                    rw [hval, Char.ofNat_toNat]
                  · have h1 : escapeChar c = [c] := by
                      unfold escapeChar
                      rw [if_neg hq, if_neg hb, if_neg h8, if_neg h9, if_neg h10,
                          if_neg h12, if_neg h13, if_neg h32]
                    rw [h1]
                    show parseStringBody (c :: (escapeString cs ++ '"' :: rest)) = _
                    unfold parseStringBody
                    rw [if_neg hq, if_neg hb, if_neg h32, ih rest]

/-- Parsing a quoted, escaped string literal recovers the characters. -/
theorem parseJString_quoteJ (s : List Char) (rest : List Char) :
    parseJString (quoteJ s ++ rest) = some (s, rest) := by
  have h : quoteJ s ++ rest = '"' :: (escapeString s ++ '"' :: rest) := by
    simp [quoteJ]
  rw [h]
  show parseStringBody (escapeString s ++ '"' :: rest) = some (s, rest)
  exact parseStringBody_escape s rest

/-- Parsing a printed `"key":"value"` pair recovers the value. -/
theorem parseField_quoteJ (key v : List Char) (tail : List Char) :
    parseField key (quoteJ key ++ (':' :: (quoteJ v ++ tail))) = some (v, tail) := by
  unfold parseField
  rw [parseJString_quoteJ key (':' :: (quoteJ v ++ tail))]
  show (if key = key then
          match expectChar ':' (':' :: (quoteJ v ++ tail)) with
          | none => none
          | some r2 => parseJString r2
        else none) = some (v, tail)
  rw [if_pos rfl]
  show parseJString (quoteJ v ++ tail) = some (v, tail)
  exact parseJString_quoteJ v tail

/-- Parsing a printed `,"key":"value"` chunk recovers the value. -/
theorem parseCommaField_quoteJ (key v : List Char) (tail : List Char) :
    parseCommaField key (',' :: (quoteJ key ++ (':' :: (quoteJ v ++ tail)))) =
      some (v, tail) := by
  unfold parseCommaField
  show parseField key (quoteJ key ++ (':' :: (quoteJ v ++ tail))) = some (v, tail)
  exact parseField_quoteJ key v tail

/-- Consuming an expected character that is present succeeds. -/
theorem expectChar_cons_self (c : Char) (rest : List Char) :
    expectChar c (c :: rest) = some rest := by
  show (if c = c then some rest else none) = some rest
  rw [if_pos rfl]

/-- Parsing a printed student object recovers the student and leaves the
suffix intact. -/
theorem parseStudent_stringify (s : Student) (rest : List Char) :
    parseStudent (stringifyStudent s ++ rest) = some (s, rest) := by
  simp only [stringifyStudent, List.cons_append, List.append_assoc,
    List.singleton_append]
  unfold parseStudent
  simp only [expectChar_cons_self, Option.some_bind, parseField_quoteJ,
    parseCommaField_quoteJ]
  rfl

/-- Parsing a printed non-empty element run, terminated by the closing
bracket, recovers the list when the fuel covers its length. -/
theorem parseStudentsAux_stringifyList (l : List Student) :
    ∀ fuel rest, l ≠ [] → l.length ≤ fuel →
      parseStudentsAux fuel (stringifyList l ++ (']' :: rest)) = some (l, rest) := by
  induction l with
  | nil =>
    intro fuel rest h _
    exact absurd rfl h
  | cons s l' ih =>
    intro fuel rest _ hlen
    cases fuel with
    | zero => simp at hlen
    | succ f =>
      cases l' with
      | nil =>
        show parseStudentsAux (f + 1) (stringifyStudent s ++ (']' :: rest)) =
          some ([s], rest)
        unfold parseStudentsAux
        rw [parseStudent_stringify s (']' :: rest)]
        rfl
      | cons s2 l'' =>
        have hshape : stringifyList (s :: s2 :: l'') ++ (']' :: rest) =
            stringifyStudent s ++
              (',' :: (stringifyList (s2 :: l'') ++ (']' :: rest))) := by
          show (stringifyStudent s ++ (',' :: stringifyList (s2 :: l''))) ++
              (']' :: rest) = _
          simp
        rw [hshape]
        unfold parseStudentsAux
        rw [parseStudent_stringify s
          (',' :: (stringifyList (s2 :: l'') ++ (']' :: rest)))]
        show (match parseStudentsAux f (stringifyList (s2 :: l'') ++ (']' :: rest)) with
              | none => none
              | some (l, r3) => some (s :: l, r3)) = some (s :: s2 :: l'', rest)
        rw [ih f rest (by simp) (Nat.le_of_succ_le_succ hlen)]

/-- Each element contributes at least one character, so the printed run
is never shorter than the list (minus the missing final separator). -/
theorem length_le_length_stringifyList (l : List Student) :
    l.length ≤ (stringifyList l).length + 1 := by
  induction l with
  | nil => simp [stringifyList]
  | cons s l' ih =>
    cases l' with
    | nil =>
      simp only [stringifyList, List.length_cons, List.length_nil]
      omega
    | cons s2 l'' =>
      have h : stringifyList (s :: s2 :: l'') =
          stringifyStudent s ++ (',' :: stringifyList (s2 :: l'')) := rfl
      have hpos : 0 < (stringifyStudent s).length := by
        simp [stringifyStudent]
      rw [h]
      simp only [List.length_append, List.length_cons] at ih ⊢
      omega

/-- Parsing a printed student array recovers the list exactly. -/
theorem parseStudents_stringifyStudents (l : List Student) :
    parseStudents (stringifyStudents l) = some l := by
  cases l with
  | nil => rfl
  | cons s l' =>
    obtain ⟨tl, htl⟩ : ∃ tl, stringifyList (s :: l') = '{' :: tl := by
      cases l' with
      | nil => exact ⟨_, rfl⟩
      | cons s2 l'' => exact ⟨_, rfl⟩
    have hlen : (s :: l').length ≤ ('{' :: (tl ++ [']'])).length + 1 := by
      have h1 := length_le_length_stringifyList (s :: l')
      have h2 : ('{' :: (tl ++ [']'])).length = (stringifyList (s :: l')).length + 1 := by
        rw [htl]
        simp
      omega
    have haux : parseStudentsAux (('{' :: (tl ++ [']'])).length + 1)
        ('{' :: (tl ++ [']'])) = some (s :: l', []) := by
      have hrw : ('{' : Char) :: (tl ++ [']']) = stringifyList (s :: l') ++ (']' :: []) := by
        rw [htl]
        simp
      rw [hrw] at hlen ⊢
      exact parseStudentsAux_stringifyList (s :: l') _ [] (by simp) hlen
    have hdata : (stringifyStudents (s :: l')).data = '[' :: ('{' :: (tl ++ [']'])) := by
      show ('[' :: stringifyList (s :: l')) ++ [']'] = '[' :: ('{' :: (tl ++ [']']))
      rw [htl]
      simp
    unfold parseStudents
    rw [hdata]
    show (match parseStudentsAux (('{' :: (tl ++ [']'])).length + 1)
            ('{' :: (tl ++ [']'])) with
          | some (l, []) => some l
          | _ => none) = some (s :: l')
    rw [haux]

/-- Writing a list with `saveToStorage` and reading it back with
`loadStudents` recovers the list, whatever the in-memory state was.
This is the shared round-trip core behind the persistence claims. -/
theorem loadStudents_saveToStorage (records prev : List Student) :
    loadStudents (saveToStorage records) prev = records := by
  have hne : stringifyStudents records ≠ "" := by
    intro h
    have hd : ('[' :: stringifyList records) ++ [']'] = ([] : List Char) :=
      congrArg String.data h
    simp at hd
  show (if stringifyStudents records = "" then prev
        else match parseStudents (stringifyStudents records) with
             | some l => l
             | none => prev) = records
  rw [if_neg hne, parseStudents_stringifyStudents records]

/-- C5: `persist` (`saveToStorage`, i.e. `JSON.stringify` into the
single `students` key) followed by `load` (`loadStudents`, i.e.
`JSON.parse` of the stored blob) yields a sequence equal to the one
persisted — serialization round-trips the record sequence. -/
theorem persist_load_roundtrip (records prev : List Student) :
    loadStudents (saveToStorage records) prev = records :=
  loadStudents_saveToStorage records prev

/-- C6: a confirmed `deleteStudent id` keeps exactly the records whose
id differs from `id`, in their original order (the result is a sublist
of the original); when no record carries `id` the list is unchanged;
and reading back what it persisted (a simulated restart) never yields a
record with the removed id. -/
theorem deleteStudent_removes (i : String) (students prev : List Student) :
    ((deleteStudent i students true).students).Sublist students ∧
    (∀ s, s ∈ (deleteStudent i students true).students ↔ s ∈ students ∧ s.id ≠ i) ∧
    ((∀ s ∈ students, s.id ≠ i) → (deleteStudent i students true).students = students) ∧
    (∀ s ∈ loadStudents (saveToStorage (deleteStudent i students true).students) prev,
        s.id ≠ i) := by
  have hdel : (deleteStudent i students true).students =
      students.filter (fun student => student.id ≠ i) := rfl
  have hmem : ∀ s, s ∈ (deleteStudent i students true).students ↔
      s ∈ students ∧ s.id ≠ i := by
    intro s
    rw [hdel, List.mem_filter]
    simp
  refine ⟨?_, hmem, ?_, ?_⟩
  · rw [hdel]
    exact List.filter_sublist students
  · intro h
    rw [hdel]
    apply List.filter_eq_self.mpr
    intro a ha
    simpa using h a ha
  · intro s hs
    rw [loadStudents_saveToStorage] at hs
    exact ((hmem s).mp hs).2

theorem deleteStudent_removes_witness :
    ({ id := "2", first_name := "B", last_name := "", email := "b",
       age := "8", grade := "2" } : Student) ∈
      (deleteStudent "1"
        [{ id := "1", first_name := "A", last_name := "", email := "a",
           age := "9", grade := "3" },
         { id := "2", first_name := "B", last_name := "", email := "b",
           age := "8", grade := "2" }] true).students :=
  ((deleteStudent_removes "1"
      [{ id := "1", first_name := "A", last_name := "", email := "a",
         age := "9", grade := "3" },
       { id := "2", first_name := "B", last_name := "", email := "b",
         age := "8", grade := "2" }] []).2.1
    { id := "2", first_name := "B", last_name := "", email := "b",
      age := "8", grade := "2" }).mpr ⟨by decide, by decide⟩

/-- The edit branch never changes any record's id: a matched record is
replaced by one carrying the very id it matched on. -/
theorem editStudentBranch_ids (st : HomeState) (e : String) :
    (editStudentBranch st e).state.students.map Student.id =
      st.students.map Student.id := by
  show (st.students.map _).map Student.id = _
  rw [List.map_map]
  apply List.map_congr_left
  intro x hx
  show Student.id (if x.id = e then
      { id := e, first_name := st.name, last_name := "",
        email := st.email, age := st.age, grade := st.grade } else x) = x.id
  by_cases hid : x.id = e
  · rw [if_pos hid, hid]
  · rw [if_neg hid]

/-- Ids after any `saveStudent` call: either unchanged (validation
failure or edit), or the old ids with the new timestamp id appended
(add). -/
theorem saveStudent_ids (now : Nat) (st : HomeState) :
    (saveStudent now st).state.students.map Student.id =
        st.students.map Student.id ∨
    (saveStudent now st).state.students.map Student.id =
        st.students.map Student.id ++ [toString now] := by
  by_cases hcond : st.name = "" ∨ st.email = "" ∨ st.age = "" ∨ st.grade = ""
  · rw [saveStudent_validation_eq now st hcond]
    exact Or.inl rfl
  · cases he : st.editId with
    | none =>
      rw [saveStudent_add_eq now st he hcond]
      right
      simp [addStudentBranch]
    | some e =>
      by_cases hee : e = ""
      · rw [saveStudent_add_eq_of_empty now st (hee ▸ he) hcond]
        right
        simp [addStudentBranch]
      · rw [saveStudent_edit_eq now st e he hee hcond]
        exact Or.inl (editStudentBranch_ids st e)

/-- A save whose timestamp string is not among the current ids keeps
the ids duplicate-free. -/
theorem nodup_ids_saveStudent (now : Nat) (st : HomeState)
    (hnd : (st.students.map Student.id).Nodup)
    (hfresh : toString now ∉ st.students.map Student.id) :
    ((saveStudent now st).state.students.map Student.id).Nodup := by
  rcases saveStudent_ids now st with h | h
  · rw [h]
    exact hnd
  · rw [h, List.nodup_append_comm]
    show ((toString now) :: st.students.map Student.id).Nodup
    exact List.nodup_cons.mpr ⟨hfresh, hnd⟩

/-- One operation preserves duplicate-free ids when its timestamp (if
it has one) is fresh. -/
theorem nodup_ids_applyOp (st : List Student) (op : StoreOp)
    (hnd : (st.map Student.id).Nodup)
    (hfresh : (match opNow op with
               | some now => !((st.map Student.id).contains (toString now))
               | none => true) = true) :
    ((applyOp st op).map Student.id).Nodup := by
  cases op with
  | removeOp i =>
    exact List.Nodup.sublist
      (List.Sublist.map Student.id (List.filter_sublist st)) hnd
  | addOp now n em a g =>
    have h1 : (!((st.map Student.id).contains (toString now))) = true := hfresh
    have hm : toString now ∉ st.map Student.id := by simpa using h1
    exact nodup_ids_saveStudent now
      { students := st, name := n, email := em, age := a, grade := g,
        editId := none } hnd hm
  | editOp now e n em a g =>
    have h1 : (!((st.map Student.id).contains (toString now))) = true := hfresh
    have hm : toString now ∉ st.map Student.id := by simpa using h1
    exact nodup_ids_saveStudent now
      { students := st, name := n, email := em, age := a, grade := g,
        editId := some e } hnd hm

/-- Fresh timestamps along a run keep ids duplicate-free, from any
duplicate-free start state. -/
theorem runOps_ids_nodup_aux (ops : List StoreOp) :
    ∀ st, (st.map Student.id).Nodup → freshOps st ops = true →
      ((ops.foldl applyOp st).map Student.id).Nodup := by
  induction ops with
  | nil =>
    intro st h _
    exact h
  | cons op rest ih =>
    intro st hnd hfresh
    unfold freshOps at hfresh
    rw [Bool.and_eq_true] at hfresh
    obtain ⟨h1, h2⟩ := hfresh
    exact ih (applyOp st op) (nodup_ids_applyOp st op hnd h1) h2

/-- C8 counterexample: the code generates ids with `Date.now()`, so two
adds during the same millisecond create two records with the same id —
uniqueness is not an invariant of the reachable states. -/
theorem reachable_duplicate_ids :
    ¬ ((runOps [StoreOp.addOp 0 "a" "b" "c" "d",
                StoreOp.addOp 0 "a" "b" "c" "d"]).map Student.id).Nodup := by
  decide

/-- C8 amended: ids stay unique along every operation sequence in which
each save's `Date.now()` string differs from every id already in the
store (two adds sharing a millisecond violate this and produce
duplicates); moreover no operation ever reassigns an existing record's
id — an edit (update) preserves every record's id, the edited one
included, and a remove only drops ids. -/
theorem reachable_ids_unique (ops : List StoreOp) (h : freshOps [] ops = true) :
    ((runOps ops).map Student.id).Nodup ∧
    (∀ students now e n em a g, e ≠ "" →
      (applyOp students (StoreOp.editOp now e n em a g)).map Student.id =
        students.map Student.id) ∧
    (∀ students i,
      ((applyOp students (StoreOp.removeOp i)).map Student.id).Sublist
        (students.map Student.id)) := by
  refine ⟨runOps_ids_nodup_aux ops [] (by simp) h, ?_, ?_⟩
  · intro students now e n em a g he
    show (saveStudent now
        { students := students, name := n, email := em,
          age := a, grade := g, editId := some e }).state.students.map Student.id =
      students.map Student.id
    by_cases hcond : n = "" ∨ em = "" ∨ a = "" ∨ g = ""
    · rw [saveStudent_validation_eq _ _ hcond]
    · rw [saveStudent_edit_eq _ _ e rfl he hcond]
      exact editStudentBranch_ids _ e
  · intro students i
    show ((students.filter fun student => student.id ≠ i).map Student.id).Sublist
      (students.map Student.id)
    exact List.Sublist.map Student.id (List.filter_sublist students)

theorem reachable_ids_unique_witness :
    freshOps [] [StoreOp.addOp 0 "a" "b" "c" "d",
                 StoreOp.addOp 1 "a" "b" "c" "d"] = true ∧
    ((runOps [StoreOp.addOp 0 "a" "b" "c" "d",
              StoreOp.addOp 1 "a" "b" "c" "d"]).map Student.id).Nodup :=
  ⟨by decide,
   (reachable_ids_unique
      [StoreOp.addOp 0 "a" "b" "c" "d", StoreOp.addOp 1 "a" "b" "c" "d"]
      (by decide)).1⟩

end LoginApp
